import Mathlib

/-!
Shallow embedding of the brand-yml reference-resolution and cascade engine
(Python sources `brand_yaml/typography.py`, `brand_yaml/__init__.py`,
`brand_yml/color.py`), together with theorems settling the frozen claims
about the specification.

Python strings are modelled as Lean `String`, Python ints as `Int`,
dictionaries as insertion-ordered association lists `List (String × _)`
with unique keys, and raised exceptions as `Except BrandError`.
-/

namespace BrandYml

/-- Error kinds raised by the validation engine, named after the spec's error
taxonomy.  The Python code raises `ValueError` subclasses
(`BrandInvalidFontWeight`, `BrandUnsupportedFontFileFormat`, plain
`ValueError` for unsupported sources and undefined theme references, and the
circular-reference error from `_defs`); messages are not modelled. -/
inductive BrandError where
  | circularReference
  | undefinedThemeReference
  | invalidFontWeight
  | unsupportedFontSource
  | unsupportedFontFileFormat
deriving DecidableEq, Repr

/-- Lookup in an insertion-ordered association list, modelling Python
dictionary lookup (keys are assumed unique, as in a `dict`). -/
def alookup {β : Type} : List (String × β) → String → Option β
  | [], _ => none
  | (k, v) :: rest, key => if key = k then some v else alookup rest key

/-! ### Python `int()` coercion of strings

Models CPython `int(s)` for a decimal string: optional surrounding
whitespace, an optional sign, then a nonempty digit run in which single
underscores may appear between digits. -/

/-- Whitespace-strip on both ends of a character list (models `str.strip()`
as used implicitly by `int()`). -/
def pyStripChars (cs : List Char) : List Char :=
  ((cs.dropWhile Char.isWhitespace).reverse.dropWhile Char.isWhitespace).reverse

/-- Accumulating digit parser: consumes digits, allowing a single underscore
between two digits, and returns the accumulated value. -/
def pyDigitsCore : Nat → List Char → Option Nat
  | acc, [] => some acc
  | acc, '_' :: rest =>
    match rest with
    | c :: rest' =>
      if c.isDigit then pyDigitsCore (acc * 10 + (c.toNat - 48)) rest' else none
    | [] => none
  | acc, c :: rest =>
    if c.isDigit then pyDigitsCore (acc * 10 + (c.toNat - 48)) rest else none

/-- Nonempty digit run, first character must be a digit. -/
def pyDigits : List Char → Option Nat
  | [] => none
  | c :: rest => if c.isDigit then pyDigitsCore (c.toNat - 48) rest else none

/-- Python `int(s)` on a string: `none` models `ValueError`. -/
def pyIntOfString (s : String) : Option Int :=
  match pyStripChars s.data with
  | [] => none
  | '+' :: rest => (pyDigits rest).map Int.ofNat
  | '-' :: rest => (pyDigits rest).map (fun n => -(Int.ofNat n : Int))
  | cs => (pyDigits cs).map Int.ofNat

/-! ### Font weight normalization (`typography.py`) -/

/-- The fixed keyword-to-number table `BrandTypographyFontWeightMap`. -/
def BrandTypographyFontWeightMap : List (String × Int) :=
  [("thin", 100),
   ("extra-light", 200),
   ("ultra-light", 200),
   ("light", 300),
   ("normal", 400),
   ("regular", 400),
   ("medium", 500),
   ("semi-bold", 600),
   ("demi-bold", 600),
   ("bold", 700),
   ("extra-bold", 800),
   ("ultra-bold", 800),
   ("black", 900)]

/-- Result domain of `validate_font_weight`: a number, or one of the literal
tokens `"normal"` / `"bold"` passed through unchanged. -/
inductive FontWeightSimple where
  | num (n : Int)
  | word (s : String)
deriving DecidableEq, Repr

/-- Input domain of `validate_font_weight`: a Python `int` or `str`. -/
inductive PyWeightInput where
  | int (n : Int)
  | str (s : String)
deriving DecidableEq, Repr

/-- Range-and-step check shared by both branches of `validate_font_weight`:
`if value < 100 or value > 900 or value % 100 != 0: raise`. -/
def weightRangeCheck (v : Int) : Except BrandError FontWeightSimple :=
  if v < 100 ∨ v > 900 ∨ v % 100 ≠ 0 then .error .invalidFontWeight
  else .ok (.num v)

/-- Embedding of `validate_font_weight` (`typography.py`): strings `"normal"`
and `"bold"` are returned unchanged; other keywords in the table map to their
number; everything else is coerced with `int()` and range-checked. -/
def validate_font_weight : PyWeightInput → Except BrandError FontWeightSimple
  | .str s =>
    if s = "normal" ∨ s = "bold" then .ok (.word s)
    else
      match alookup BrandTypographyFontWeightMap s with
      | some n => .ok (.num n)
      | none =>
        match pyIntOfString s with
        | none => .error .invalidFontWeight
        | some v => weightRangeCheck v
  | .int v => weightRangeCheck v

/-- Single value or list of values, modelling the `SingleOrList` type alias. -/
inductive SingleOrList (α : Type) where
  | single (a : α)
  | list (xs : List α)
deriving DecidableEq, Repr

/-- Normalization `x if isinstance(x, list) else [x]` used by the URL
builder. -/
def SingleOrList.toList {α : Type} : SingleOrList α → List α
  | .single a => [a]
  | .list xs => xs

/-- Elementwise weight validation over a list (the list comprehension in
`BrandTypographyGoogleFontsApi.validate_weight`); the first failure wins. -/
def validateWeightList : List PyWeightInput → Except BrandError (List FontWeightSimple)
  | [] => .ok []
  | x :: xs =>
    match validate_font_weight x with
    | .error e => .error e
    | .ok w =>
      match validateWeightList xs with
      | .error e => .error e
      | .ok ws => .ok (w :: ws)

/-- Embedding of `BrandTypographyGoogleFontsApi.validate_weight`
(`typography.py`): applies `validate_font_weight` to a single value or to
each element of a list. -/
def BrandTypographyGoogleFontsApi.validate_weight :
    SingleOrList PyWeightInput → Except BrandError (SingleOrList FontWeightSimple)
  | .list xs => (validateWeightList xs).map SingleOrList.list
  | .single x => (validate_font_weight x).map SingleOrList.single

/-! ### Path suffix extraction

Models `pathlib.PurePosixPath(value).suffix`: the final path component's
extension, i.e. the part of the name from its last dot, provided that dot is
neither the first nor the last character of the name. -/

/-- Splits a character list at `'/'` separators. -/
def splitSlashAux : List Char → List Char → List String
  | [], cur => [String.mk cur.reverse]
  | '/' :: rest, cur => String.mk cur.reverse :: splitSlashAux rest []
  | c :: rest, cur => splitSlashAux rest (c :: cur)

/-- Final component of a POSIX path (models `Path(s).name`); the special
components `"."` and `".."` have an empty name. -/
def pathName (s : String) : String :=
  let comps := (splitSlashAux s.data []).filter (fun c => c ≠ "")
  let name := comps.getLastD ""
  if name = "." ∨ name = ".." then "" else name

/-- Index of the last `'.'` in a character list, if any. -/
def lastDotIndexAux : List Char → Nat → Option Nat → Option Nat
  | [], _, acc => acc
  | c :: rest, i, acc => lastDotIndexAux rest (i + 1) (if c = '.' then some i else acc)

/-- Index of the last `'.'` in a character list, if any. -/
def lastDotIndex (cs : List Char) : Option Nat :=
  lastDotIndexAux cs 0 none

/-- Models `Path(s).suffix`: last-dot extension of the final component, empty
when the dot is leading or trailing or absent. -/
def pathSuffix (s : String) : String :=
  let cs := (pathName s).data
  match lastDotIndex cs with
  | none => ""
  | some i => if 0 < i ∧ i + 1 < cs.length then String.mk (cs.drop i) else ""

/-! ### Font source classification (`typography.py`) -/

/-- The fixed extension table `FontFormats` mapping file extensions to format
tokens. -/
def FontFormats : List (String × String) :=
  [(".otc", "collection"),
   (".ttc", "collection"),
   (".eot", "embedded-opentype"),
   (".otf", "opentype"),
   (".ttf", "truetype"),
   (".svg", "svg"),
   (".svgz", "svg"),
   (".woff", "woff"),
   (".woff2", "woff2")]

/-- Discriminator tags of the font union (`Tag("google")`, `Tag("bunny")`,
`Tag("file")`). -/
inductive FontTag where
  | google
  | bunny
  | file
deriving DecidableEq, Repr

/-- Embedding of `brand_typography_font_discriminator` on an untagged raw
declaration.  The input is the dictionary's `"source"` entry; `none` models
both a missing entry and a non-string value (`if not isinstance(value, str)`),
which fall through to the unsupported-source error. -/
def brand_typography_font_discriminator (value : Option String) : Except BrandError FontTag :=
  match value with
  | none => .error .unsupportedFontSource
  | some v =>
    if v = "google" then .ok .google
    else if v = "bunny" then .ok .bunny
    else if pathSuffix v ≠ "" then .ok .file
    else .error .unsupportedFontSource

/-- Embedding of `BrandTypographyFontFile.validate_source`: the source must
have a non-empty suffix and the suffix must be a key of `FontFormats`
(case-sensitively); otherwise `BrandUnsupportedFontFileFormat` is raised. -/
def BrandTypographyFontFile.validate_source (v : String) : Except BrandError String :=
  if pathSuffix v = "" then .error .unsupportedFontFileFormat
  else if alookup FontFormats (pathSuffix v) = none then .error .unsupportedFontFileFormat
  else .ok v

/-- Classified font declaration variants. -/
inductive FontVariant where
  | google
  | bunny
  | file (source : String)
deriving DecidableEq, Repr

/-- Composition of the discriminator with the selected variant's `source`
validation: this is what pydantic runs for an untagged declaration — the
discriminator picks the variant, then the variant model validates its
fields (for the file variant, `validate_source`). -/
def classifyFontSource (value : Option String) : Except BrandError FontVariant :=
  match brand_typography_font_discriminator value with
  | .error e => .error e
  | .ok .google => .ok .google
  | .ok .bunny => .ok .bunny
  | .ok .file =>
    match BrandTypographyFontFile.validate_source (value.getD "") with
    | .error e => .error e
    | .ok s => .ok (.file s)

/-- Embedding of the `BrandTypographyFontFile.format` property: looks the
suffix up in `FontFormats` and additionally requires one of the four
web-usable formats. -/
def BrandTypographyFontFile.format (source : String) : Except BrandError String :=
  match alookup FontFormats (pathSuffix source) with
  | none => .error .unsupportedFontFileFormat
  | some fmt =>
    if fmt = "opentype" ∨ fmt = "truetype" ∨ fmt = "woff" ∨ fmt = "woff2" then .ok fmt
    else .error .unsupportedFontFileFormat

/-! ### Typography color resolution (`__init__.py`, `Brand.resolve_typography_colors`) -/

/-- Theme-slot names: the keys of `BrandColor.model_fields` other than
`palette`, in declaration order. -/
def themeColorNames : List String :=
  ["foreground", "background", "primary", "secondary", "tertiary",
   "success", "info", "warning", "danger", "light", "dark"]

/-- Embedding of the per-field body of `Brand.resolve_typography_colors`
for a color field holding a string value: `color_defs` is the resolved color
namespace (`self.color._color_defs(resolved=True)`).  The source computes
`is_defined = value in color_defs` and `is_theme_color = value in
color_names`; when defined the field is replaced by `color_defs[value]`,
when undefined but a theme-slot name a `ValueError` is raised, otherwise the
value is left unchanged. -/
def resolve_typography_color_value (color_defs : List (String × String))
    (value : String) : Except BrandError String :=
  match alookup color_defs value with
  | some lit => .ok lit
  | none =>
    if themeColorNames.contains value then .error .undefinedThemeReference
    else .ok value

/-! ### Web-font import URL builder (`typography.py`) -/

/-- Font style literal `"normal" | "italic"`. -/
inductive FontStyle where
  | normal
  | italic
deriving DecidableEq, Repr

/-- String form of a font style literal. -/
def FontStyle.pystr : FontStyle → String
  | .normal => "normal"
  | .italic => "italic"

/-- Insertion step of a stable insertion sort. -/
def insertLe {α : Type} (le : α → α → Bool) (a : α) : List α → List α
  | [] => [a]
  | b :: bs => if le a b then a :: b :: bs else b :: insertLe le a bs

/-- Stable ascending sort with respect to a boolean `≤`, modelling Python
`sorted`. -/
def sortByLe {α : Type} (le : α → α → Bool) : List α → List α
  | [] => []
  | a :: as => insertLe le a (sortByLe le as)

/-- Boolean `≤` on `Int`. -/
def intLe (a b : Int) : Bool := decide (a ≤ b)

/-- Boolean `≤` on `Nat`. -/
def natLe (a b : Nat) : Bool := decide (a ≤ b)

/-- Lexicographic `<` on character lists by code point, modelling Python
string comparison. -/
def charListLt : List Char → List Char → Bool
  | [], [] => false
  | [], _ :: _ => true
  | _ :: _, [] => false
  | a :: as, b :: bs =>
    if a.toNat < b.toNat then true
    else if a.toNat = b.toNat then charListLt as bs
    else false

/-- Boolean `≤` on strings by code-point lexicographic order, modelling
Python string comparison. -/
def pyStrLe (a b : String) : Bool := a == b || charListLt a.data b.data

/-- Models `itertools.product(xs, ys)`: all pairs in `xs`-major order. -/
def productPairs {α β : Type} (xs : List α) (ys : List β) : List (α × β) :=
  xs.flatMap (fun x => ys.map (fun y => (x, y)))

/-- UTF-8 encoding of a character as its byte values. -/
def utf8Bytes (c : Char) : List Nat :=
  let n := c.toNat
  if n < 128 then [n]
  else if n < 2048 then [192 + n / 64, 128 + n % 64]
  else if n < 65536 then [224 + n / 4096, 128 + (n / 64) % 64, 128 + n % 64]
  else [240 + n / 262144, 128 + (n / 4096) % 64, 128 + (n / 64) % 64, 128 + n % 64]

/-- UTF-8 bytes of a string. -/
def strBytes (s : String) : List Nat :=
  s.data.flatMap utf8Bytes

/-- Uppercase hexadecimal digit for a value below 16. -/
def hexDigitChar (n : Nat) : Char :=
  if n < 10 then Char.ofNat (48 + n) else Char.ofNat (55 + n)

/-- Bytes `urllib.parse.quote_plus` leaves unescaped with `safe=''`:
ASCII alphanumerics and `- . _ ~` (codes 45, 46, 95, 126). -/
def isUrlSafeByte (b : Nat) : Bool :=
  (decide (48 ≤ b) && decide (b ≤ 57)) ||
  (decide (65 ≤ b) && decide (b ≤ 90)) ||
  (decide (97 ≤ b) && decide (b ≤ 122)) ||
  b == 45 || b == 46 || b == 95 || b == 126

/-- Encoding of one byte under `quote_plus`: space becomes `+`, safe bytes
pass through, all others are percent-encoded in uppercase hex. -/
def quoteByte (b : Nat) : String :=
  if b = 32 then "+"
  else if isUrlSafeByte b then String.singleton (Char.ofNat b)
  else String.mk ['%', hexDigitChar (b / 16), hexDigitChar (b % 16)]

/-- Models `urllib.parse.quote_plus` over the string's UTF-8 bytes. -/
def quotePlus (s : String) : String :=
  String.join ((strBytes s).map quoteByte)

/-- Models `urllib.parse.urlencode` on an ordered dictionary: each key and
value is `quote_plus`-encoded and pairs are joined with `&`. -/
def urlencodePairs (pairs : List (String × String)) : String :=
  String.intercalate "&" (pairs.map (fun kv => quotePlus kv.1 ++ "=" ++ quotePlus kv.2))

/-- Embedding of `BrandTypographyGoogleFontsApi`.  Weights are modelled in
their numeric domain (the URL builder sorts the weight list, which in the
source requires homogeneous elements); the `url` is a validated `HttpUrl`
whose string form ends in `/`, so `urljoin(url, "css?...")` is modelled as
string concatenation. -/
structure BrandTypographyGoogleFontsApi where
  family : String
  weight : SingleOrList Int := .list [400, 700]
  style : SingleOrList FontStyle := .list [.normal, .italic]
  display : String := "auto"
  version : Nat := 2
  url : String := "https://fonts.googleapis.com/"
deriving DecidableEq, Repr

/-- Embedding of `BrandTypographyGoogleFontsApi._import_url_v1`. -/
def importUrlV1 (f : BrandTypographyGoogleFontsApi) : String :=
  let weight := sortByLe intLe f.weight.toList
  let style_str := sortByLe pyStrLe (f.style.toList.map FontStyle.pystr)
  let ital := sortByLe pyStrLe (style_str.map (fun s => if s = "italic" then "i" else ""))
  let values :=
    if weight.length > 0 && ital.length > 0 then
      (productPairs weight ital).map (fun wi => toString wi.1 ++ wi.2)
    else if weight.length > 0 then weight.map (fun w => toString w)
    else if ital.length > 0 then ital.map (fun i => if i = "" then "regular" else "italic")
    else []
  let family_values := if values.length = 0 then "" else ":" ++ String.intercalate "," values
  let params := urlencodePairs [("family", f.family ++ family_values), ("display", f.display)]
  f.url ++ "css?" ++ params

/-- Embedding of `BrandTypographyGoogleFontsApi._import_url_v2`.  Note that
`axis_range` is built unconditionally, even when both lists are empty. -/
def importUrlV2 (f : BrandTypographyGoogleFontsApi) : String :=
  let weight := sortByLe intLe f.weight.toList
  let style_str := sortByLe pyStrLe (f.style.toList.map FontStyle.pystr)
  let ital := sortByLe natLe (style_str.map (fun s => if s = "italic" then 1 else 0))
  let values :=
    if weight.length > 0 && ital.length > 0 then
      (productPairs ital weight).map (fun iw => toString iw.1 ++ "," ++ toString iw.2)
    else if weight.length > 0 then weight.map (fun w => toString w)
    else if ital.length > 0 then ital.map (fun i => toString i)
    else []
  let axis :=
    if weight.length > 0 && ital.length > 0 then "ital,wght"
    else if weight.length > 0 then "wght"
    else if ital.length > 0 then "ital"
    else ""
  let axis_range := ":" ++ axis ++ "@" ++ String.intercalate ";" values
  let params := urlencodePairs [("family", f.family ++ axis_range), ("display", f.display)]
  f.url ++ "css2?" ++ params

/-- Embedding of `BrandTypographyGoogleFontsApi.import_url`. -/
def import_url (f : BrandTypographyGoogleFontsApi) : String :=
  if f.version = 1 then importUrlV1 f else importUrlV2 f

/-- Construction of a `BrandTypographyFontGoogle` from only a family name:
all other fields take the class defaults (version 2,
`https://fonts.googleapis.com/`). -/
def BrandTypographyFontGoogle (family : String) : BrandTypographyGoogleFontsApi :=
  { family := family }

/-- Construction of a `BrandTypographyFontBunny` from only a family name:
the subclass overrides the defaults of `version` (1) and `url`
(`https://fonts.bunny.net/`). -/
def BrandTypographyFontBunny (family : String) : BrandTypographyGoogleFontsApi :=
  { family := family, version := 1, url := "https://fonts.bunny.net/" }

/-! ### Color palette cycle detection and reference resolution

The functions `check_circular_references` and `defs_replace_recursively`
live in `brand_yml/_defs.py`, which is not part of the provided sources;
only their caller `BrandColor._create_brand_palette` is.  They are modelled
from the spec (§4.1 Cycle Detector, §4.2 Reference Resolver) for the flat
palette namespace, where target and definitions coincide. -/

/-- Modelled from the spec: chain resolution of one value against a
definitions namespace — follow `definitions[value]` repeatedly until the
result is no longer a key, bounded by an explicit fuel (the source caps the
iteration at `len(definitions) + 1` steps as a cycle guard). -/
def chainResolve (p : List (String × String)) : Nat → String → String
  | 0, v => v
  | fuel + 1, v =>
    match alookup p v with
    | none => v
    | some w => chainResolve p fuel w

/-- A definitions namespace contains a cyclic reference chain: some key,
followed through the mapping for at least one and at most `p.length` steps,
returns to itself.  (Non-keys are fixed points of `chainResolve`, so the
equation forces a genuine cycle.) -/
def CyclicDefs (p : List (String × String)) : Prop :=
  ∃ k ∈ p.map Prod.fst, ∃ m ∈ List.range (p.length + 1), 0 < m ∧ chainResolve p m k = k

instance decCyclicDefs (p : List (String × String)) : Decidable (CyclicDefs p) := by
  unfold CyclicDefs
  infer_instance

/-- Modelled from the spec: the Cycle Detector from `_defs.py`
(`check_circular_references`) — reports a `CircularReferenceError` exactly
when the namespace contains a cyclic reference chain, without modifying the
namespace. -/
def check_circular_references (p : List (String × String)) : Except BrandError Unit :=
  if CyclicDefs p then .error .circularReference else .ok ()

/-- Modelled from the spec: the Reference Resolver from `_defs.py`
(`defs_replace_recursively`) applied with `target == definitions`, as in
`BrandColor._create_brand_palette` — every value that is a key of the
namespace is replaced by its chain-resolved literal, with the iteration
capped at `len(definitions) + 1` steps. -/
def defs_replace_recursively (p : List (String × String)) : List (String × String) :=
  p.map (fun kv => (kv.1, chainResolve p (p.length + 1) kv.2))

/-- Embedding of the `BrandColor._create_brand_palette` field validator
(`color.py`): first run the cycle check, then — only if it succeeded —
resolve the palette against itself. -/
def _create_brand_palette (p : List (String × String)) :
    Except BrandError (List (String × String)) :=
  match check_circular_references p with
  | .error e => .error e
  | .ok _ => .ok (defs_replace_recursively p)

/-! ### Typography groups and the monospace cascade (`typography.py`) -/

/-- Embedding of `BrandTypographyBase` (family/style/weight/size and the
block/color options; `line-height` is modelled as a rational). -/
structure BrandTypographyBase where
  family : Option String := none
  style : Option (SingleOrList FontStyle) := none
  weight : Option FontWeightSimple := none
  size : Option String := none
  line_height : Option Rat := none
  color : Option String := none
  background_color : Option String := none
deriving DecidableEq, Repr

/-- Embedding of `BrandTypographyHeadings`. -/
structure BrandTypographyHeadings where
  family : Option String := none
  style : Option (SingleOrList FontStyle) := none
  weight : Option FontWeightSimple := none
  line_height : Option Rat := none
  color : Option String := none
  background_color : Option String := none
deriving DecidableEq, Repr

/-- Embedding of `BrandTypographyMonospace`. -/
structure BrandTypographyMonospace where
  family : Option String := none
  style : Option (SingleOrList FontStyle) := none
  weight : Option FontWeightSimple := none
  size : Option String := none
deriving DecidableEq, Repr

/-- Embedding of `BrandTypographyMonospaceInline`. -/
structure BrandTypographyMonospaceInline where
  family : Option String := none
  style : Option (SingleOrList FontStyle) := none
  weight : Option FontWeightSimple := none
  size : Option String := none
  color : Option String := none
  background_color : Option String := none
deriving DecidableEq, Repr

/-- Embedding of `BrandTypographyMonospaceBlock`. -/
structure BrandTypographyMonospaceBlock where
  family : Option String := none
  style : Option (SingleOrList FontStyle) := none
  weight : Option FontWeightSimple := none
  size : Option String := none
  line_height : Option Rat := none
  color : Option String := none
  background_color : Option String := none
deriving DecidableEq, Repr

/-- Embedding of `BrandTypographyLink`. -/
structure BrandTypographyLink where
  weight : Option FontWeightSimple := none
  color : Option String := none
  background_color : Option String := none
  decoration : Option String := none
deriving DecidableEq, Repr

/-- Embedding of `BrandTypographyFontFile` (the local-file variant's
fields). -/
structure BrandTypographyFontFile where
  source : String
  family : String
  weight : FontWeightSimple := .word "normal"
  style : FontStyle := .normal
deriving DecidableEq, Repr

/-- One entry of `BrandTypography.fonts`: the discriminated union of the
google, bunny and file variants. -/
inductive BrandTypographyFont where
  | google (g : BrandTypographyGoogleFontsApi)
  | bunny (b : BrandTypographyGoogleFontsApi)
  | file (f : BrandTypographyFontFile)
deriving DecidableEq, Repr

/-- Embedding of `BrandTypography`. -/
structure BrandTypography where
  fonts : List BrandTypographyFont := []
  base : Option BrandTypographyBase := none
  headings : Option BrandTypographyHeadings := none
  monospace : Option BrandTypographyMonospace := none
  monospace_inline : Option BrandTypographyMonospaceInline := none
  monospace_block : Option BrandTypographyMonospaceBlock := none
  link : Option BrandTypographyLink := none
deriving DecidableEq, Repr

/-- Per-field body of `use_fallback` inside
`BrandTypography.forward_monospace_values`: if the parent's value is `None`
the child is untouched; otherwise the parent's value is copied exactly when
the child's value is `None`. -/
def useFallbackField {α : Type} (child parent : Option α) : Option α :=
  match parent with
  | none => child
  | some v =>
    match child with
    | none => some v
    | some c => some c

/-- Embedding of the model validator
`BrandTypography.forward_monospace_values`: both `monospace-inline` and
`monospace-block`, when present together with `monospace`, inherit `family`,
`style`, `weight` and `size` from it. -/
def forward_monospace_values (t : BrandTypography) : BrandTypography :=
  let inl :=
    match t.monospace_inline, t.monospace with
    | some o, some p =>
      some { o with
        family := useFallbackField o.family p.family,
        style := useFallbackField o.style p.style,
        weight := useFallbackField o.weight p.weight,
        size := useFallbackField o.size p.size }
    | o, _ => o
  let blk :=
    match t.monospace_block, t.monospace with
    | some o, some p =>
      some { o with
        family := useFallbackField o.family p.family,
        style := useFallbackField o.style p.style,
        weight := useFallbackField o.weight p.weight,
        size := useFallbackField o.size p.size }
    | o, _ => o
  { t with monospace_inline := inl, monospace_block := blk }

/-- Specification wording of the cascade for one attribute, to be compared
with what `forward_monospace_values` computes: the attribute after
validation equals the parent's value when the child's was unset and the
parent's set; a child attribute that was set keeps its original value; and
an attribute unset on both sides stays unset. -/
def CascadeSpec {α : Type} (child parent after : Option α) : Prop :=
  (child = none → parent ≠ none → after = parent) ∧
  (child ≠ none → after = child) ∧
  (child = none → parent = none → after = none)

/-! ## Theorems -/

/-- Range check rewritten positively: accepted exactly on multiples of 100
inside `[100, 900]`. -/
theorem weightRangeCheck_eq (v : Int) :
    weightRangeCheck v =
      if 100 ≤ v ∧ v ≤ 900 ∧ v % 100 = 0 then .ok (.num v)
      else .error .invalidFontWeight := by
  unfold weightRangeCheck
  by_cases hb : 100 ≤ v ∧ v ≤ 900 ∧ v % 100 = 0
  · rw [if_neg (by omega), if_pos hb]
  · rw [if_pos (by omega), if_neg hb]

/-- C1: For every typography group color field holding a string value, after
document validation: a value that is a key of the resolved color namespace is
replaced by that key's resolved literal; a theme-slot name with no value in
the namespace raises the undefined-theme-reference error; any other value is
passed through unchanged as an opaque literal. -/
theorem claim_C1_typography_color_resolution
    (color_defs : List (String × String)) (value : String) :
    (∀ lit, alookup color_defs value = some lit →
       resolve_typography_color_value color_defs value = .ok lit) ∧
    (alookup color_defs value = none → value ∈ themeColorNames →
       resolve_typography_color_value color_defs value =
         .error .undefinedThemeReference) ∧
    (alookup color_defs value = none → value ∉ themeColorNames →
       resolve_typography_color_value color_defs value = .ok value) := by
  unfold resolve_typography_color_value
  refine ⟨?_, ?_, ?_⟩
  · intro lit h
    rw [h]
  · intro h hm
    rw [h, if_pos (List.elem_iff.mpr hm)]
  · intro h hm
    rw [h, if_neg (fun hc => hm (List.elem_iff.mp hc))]

/-- Witness for C1 at the spec's concrete examples: a resolved `primary` is
substituted, an undefined theme slot errors, and an opaque literal passes
through. -/
theorem claim_C1_witness :
    resolve_typography_color_value [("primary", "#6339E0")] "primary" = .ok "#6339E0" ∧
    resolve_typography_color_value [("primary", "#6339E0")] "danger" =
      .error .undefinedThemeReference ∧
    resolve_typography_color_value [("primary", "#6339E0")] "steelblue" = .ok "steelblue" :=
  ⟨(claim_C1_typography_color_resolution [("primary", "#6339E0")] "primary").1
     "#6339E0" (by decide),
   (claim_C1_typography_color_resolution [("primary", "#6339E0")] "danger").2.1
     (by decide) (by decide),
   (claim_C1_typography_color_resolution [("primary", "#6339E0")] "steelblue").2.2
     (by decide) (by decide)⟩

/-- C2: The font-weight normalizer returns `"normal"` and `"bold"` unchanged;
every other keyword in the fixed table returns its table number; any other
input is coerced to an integer and the normalizer raises exactly when the
coercion fails or the integer is outside `[100, 900]` or not a multiple of
100. -/
theorem claim_C2_font_weight_normalizer :
    validate_font_weight (.str "normal") = .ok (.word "normal") ∧
    validate_font_weight (.str "bold") = .ok (.word "bold") ∧
    (∀ s n, alookup BrandTypographyFontWeightMap s = some n →
       s ≠ "normal" → s ≠ "bold" →
       validate_font_weight (.str s) = .ok (.num n)) ∧
    (∀ v : Int, validate_font_weight (.int v) =
       if 100 ≤ v ∧ v ≤ 900 ∧ v % 100 = 0 then .ok (.num v)
       else .error .invalidFontWeight) ∧
    (∀ s, alookup BrandTypographyFontWeightMap s = none →
       validate_font_weight (.str s) =
         match pyIntOfString s with
         | none => .error .invalidFontWeight
         | some v =>
           if 100 ≤ v ∧ v ≤ 900 ∧ v % 100 = 0 then .ok (.num v)
           else .error .invalidFontWeight) := by
  refine ⟨rfl, rfl, ?_, ?_, ?_⟩
  · intro s n h hn hb
    simp only [validate_font_weight]
    rw [if_neg (by simp [hn, hb]), h]
  · intro v
    exact weightRangeCheck_eq v
  · intro s h
    have hn : s ≠ "normal" := by
      rintro rfl
      exact absurd h (by decide)
    have hb : s ≠ "bold" := by
      rintro rfl
      exact absurd h (by decide)
    simp only [validate_font_weight]
    rw [if_neg (by simp [hn, hb]), h]
    cases hpi : pyIntOfString s with
    | none => rfl
    | some v => exact weightRangeCheck_eq v

/-- Witness for C2 at the spec's concrete examples: `"semi-bold"` maps to
600, `"ultra-bold"` to 800, and 150 raises. -/
theorem claim_C2_witness :
    validate_font_weight (.str "semi-bold") = .ok (.num 600) ∧
    validate_font_weight (.str "ultra-bold") = .ok (.num 800) ∧
    validate_font_weight (.int 150) = .error .invalidFontWeight := by
  refine ⟨claim_C2_font_weight_normalizer.2.2.1 "semi-bold" 600 (by decide)
           (by decide) (by decide),
         claim_C2_font_weight_normalizer.2.2.1 "ultra-bold" 800 (by decide)
           (by decide) (by decide), ?_⟩
  have h := claim_C2_font_weight_normalizer.2.2.2.1 150
  rw [if_neg (by decide)] at h
  exact h

/-- C3 counterexample: in the hosted weight domain, the keyword `"normal"` is
not mapped to 400 — `validate_font_weight` returns it unchanged as a string,
so the hosted validator yields the token `"normal"`, not the table's numeric
value. -/
theorem claim_C3_counterexample :
    BrandTypographyGoogleFontsApi.validate_weight (.single (.str "normal")) =
      .ok (.single (.word "normal")) ∧
    SingleOrList.single (FontWeightSimple.word "normal") ≠
      SingleOrList.single (FontWeightSimple.num 400) := by
  exact ⟨rfl, by decide⟩

/-- C3 (amended): For a hosted font weight keyword, every alias in the fixed
table other than `"normal"` and `"bold"` maps to its table number, while
`"normal"` and `"bold"` pass through unchanged as strings (the same simple
domain rule as elsewhere). -/
theorem claim_C3_amended_hosted_weights :
    (∀ s n, alookup BrandTypographyFontWeightMap s = some n →
       s ≠ "normal" → s ≠ "bold" →
       BrandTypographyGoogleFontsApi.validate_weight (.single (.str s)) =
         .ok (.single (.num n))) ∧
    BrandTypographyGoogleFontsApi.validate_weight (.single (.str "normal")) =
      .ok (.single (.word "normal")) ∧
    BrandTypographyGoogleFontsApi.validate_weight (.single (.str "bold")) =
      .ok (.single (.word "bold")) := by
  refine ⟨?_, rfl, rfl⟩
  intro s n h hn hb
  simp only [BrandTypographyGoogleFontsApi.validate_weight, validate_font_weight]
  rw [if_neg (by simp [hn, hb]), h]
  rfl

/-- Witness for the amended C3 at a hosted-domain keyword: `"semi-bold"`
maps to 600. -/
theorem claim_C3_amended_witness :
    BrandTypographyGoogleFontsApi.validate_weight (.single (.str "semi-bold")) =
      .ok (.single (.num 600)) :=
  claim_C3_amended_hosted_weights.1 "semi-bold" 600 (by decide) (by decide) (by decide)

/-- C10: Constructed with only a family name, the google flavor defaults to
API version 2 on `https://fonts.googleapis.com/` and the bunny flavor to
version 1 on `https://fonts.bunny.net/`, while both share the defaults
`weight = [400, 700]`, `style = ["normal", "italic"]` and
`display = "auto"`. -/
theorem claim_C10_hosted_defaults (fam : String) :
    (BrandTypographyFontGoogle fam).version = 2 ∧
    (BrandTypographyFontGoogle fam).url = "https://fonts.googleapis.com/" ∧
    (BrandTypographyFontBunny fam).version = 1 ∧
    (BrandTypographyFontBunny fam).url = "https://fonts.bunny.net/" ∧
    (BrandTypographyFontGoogle fam).weight = .list [400, 700] ∧
    (BrandTypographyFontBunny fam).weight = .list [400, 700] ∧
    (BrandTypographyFontGoogle fam).style = .list [.normal, .italic] ∧
    (BrandTypographyFontBunny fam).style = .list [.normal, .italic] ∧
    (BrandTypographyFontGoogle fam).display = "auto" ∧
    (BrandTypographyFontBunny fam).display = "auto" ∧
    (BrandTypographyFontGoogle fam).family = fam ∧
    (BrandTypographyFontBunny fam).family = fam :=
  ⟨rfl, rfl, rfl, rfl, rfl, rfl, rfl, rfl, rfl, rfl, rfl, rfl⟩

/-- C4 counterexample: a source string with an unrecognized extension is
tagged as a file by the discriminator and then rejected by the file model's
source validation with the unsupported-font-file-format error — not with the
unsupported-font-source error the claim requires. -/
theorem claim_C4_counterexample :
    classifyFontSource (some "fonts/Foo.xyz") = .error .unsupportedFontFileFormat ∧
    BrandError.unsupportedFontFileFormat ≠ BrandError.unsupportedFontSource := by
  exact ⟨rfl, by decide⟩

/-- C4 (amended): For an untagged non-hosted declaration, the end-to-end
classification accepts a LocalFont exactly when the source is a string with
a non-empty extension that is a key of the fixed extension table
(case-sensitively); a string with no extension, or a missing/non-string
source, fails with the unsupported-font-source error; and a string with an
unrecognized extension is tagged as a file but fails the file model's source
validation with the unsupported-font-file-format error. -/
theorem claim_C4_amended_classification :
    (∀ v : String, v ≠ "google" → v ≠ "bunny" →
       (classifyFontSource (some v) = .ok (.file v) ↔
         pathSuffix v ≠ "" ∧ alookup FontFormats (pathSuffix v) ≠ none)) ∧
    (∀ v : String, v ≠ "google" → v ≠ "bunny" → pathSuffix v = "" →
       classifyFontSource (some v) = .error .unsupportedFontSource) ∧
    (∀ v : String, v ≠ "google" → v ≠ "bunny" → pathSuffix v ≠ "" →
       alookup FontFormats (pathSuffix v) = none →
       classifyFontSource (some v) = .error .unsupportedFontFileFormat) ∧
    classifyFontSource none = .error .unsupportedFontSource := by
  refine ⟨?_, ?_, ?_, rfl⟩
  · intro v hg hb
    constructor
    · intro h
      by_cases hs : pathSuffix v = ""
      · simp [classifyFontSource, brand_typography_font_discriminator, hg, hb, hs] at h
      · by_cases hf : alookup FontFormats (pathSuffix v) = none
        · simp [classifyFontSource, brand_typography_font_discriminator,
                BrandTypographyFontFile.validate_source, hg, hb, hs, hf] at h
        · exact ⟨hs, hf⟩
    · rintro ⟨hs, hf⟩
      simp [classifyFontSource, brand_typography_font_discriminator,
            BrandTypographyFontFile.validate_source, hg, hb, hs, hf]
  · intro v hg hb hs
    simp [classifyFontSource, brand_typography_font_discriminator, hg, hb, hs]
  · intro v hg hb hs hf
    simp [classifyFontSource, brand_typography_font_discriminator,
          BrandTypographyFontFile.validate_source, hg, hb, hs, hf]

/-- Witness for the amended C4 at the spec's concrete examples: a `.ttf`
path is accepted as a file, `"not-a-font"` raises the unsupported-source
error, and a hosted identifier is not a file. -/
theorem claim_C4_amended_witness :
    classifyFontSource (some "fonts/Foo.ttf") = .ok (.file "fonts/Foo.ttf") ∧
    classifyFontSource (some "not-a-font") = .error .unsupportedFontSource ∧
    classifyFontSource (some "Foo.TTF") = .error .unsupportedFontFileFormat :=
  ⟨(claim_C4_amended_classification.1 "fonts/Foo.ttf" (by decide) (by decide)).mpr
     ⟨by decide, by decide⟩,
   claim_C4_amended_classification.2.1 "not-a-font" (by decide) (by decide) (by decide),
   claim_C4_amended_classification.2.2.1 "Foo.TTF" (by decide) (by decide)
     (by decide) (by decide)⟩

/-- Insertion preserves length plus one. -/
theorem insertLe_length {α : Type} (le : α → α → Bool) (a : α) (l : List α) :
    (insertLe le a l).length = l.length + 1 := by
  induction l with
  | nil => rfl
  | cons b bs ih =>
    unfold insertLe
    split
    · rfl
    · simp [ih]

/-- Sorting preserves length. -/
theorem sortByLe_length {α : Type} (le : α → α → Bool) (l : List α) :
    (sortByLe le l).length = l.length := by
  induction l with
  | nil => rfl
  | cons a as ih => simp [sortByLe, insertLe_length, ih]

/-- C5: For a hosted declaration under API version 2 with non-empty weight
and style lists, the family parameter is `{family}:ital,wght@{values}`
where `values` is the style-major cartesian product of the sorted style
integers and the sorted weights, each pair rendered `{style},{weight}` and
joined by semicolons, appended to `css2?` on the base URL; in particular
the Roboto example produces exactly the expected percent-encoded query. -/
theorem claim_C5_import_url_v2 :
    (∀ (fam d u : String) (ws : List Int) (ss : List FontStyle),
       ws ≠ [] → ss ≠ [] →
       importUrlV2 { family := fam, weight := .list ws, style := .list ss,
                     display := d, version := 2, url := u } =
         u ++ "css2?" ++ urlencodePairs
           [("family", fam ++ (":" ++ "ital,wght" ++ "@" ++ String.intercalate ";"
              ((productPairs
                  (sortByLe natLe ((sortByLe pyStrLe (ss.map FontStyle.pystr)).map
                     (fun s => if s = "italic" then 1 else 0)))
                  (sortByLe intLe ws)).map
                 (fun iw => toString iw.1 ++ "," ++ toString iw.2)))),
            ("display", d)]) ∧
    import_url (BrandTypographyFontGoogle "Roboto") =
      "https://fonts.googleapis.com/css2?family=Roboto%3Aital%2Cwght%400%2C400%3B0%2C700%3B1%2C400%3B1%2C700&display=auto" := by
  constructor
  · intro fam d u ws ss hw hs
    have hw' : 0 < (sortByLe intLe ws).length := by
      rw [sortByLe_length]
      exact List.length_pos.mpr hw
    have hs' : 0 < (sortByLe natLe ((sortByLe pyStrLe (ss.map FontStyle.pystr)).map
        (fun s => if s = "italic" then 1 else 0))).length := by
      rw [sortByLe_length, List.length_map, sortByLe_length, List.length_map]
      exact List.length_pos.mpr hs
    simp [importUrlV2, SingleOrList.toList, hw', hs']
  · rfl

/-- Witness for C5 at the Roboto example, its hypotheses discharged at the
concrete lists. -/
theorem claim_C5_witness :
    importUrlV2 { family := "Roboto", weight := .list [400, 700],
                  style := .list [.normal, .italic], display := "auto",
                  version := 2, url := "https://fonts.googleapis.com/" } =
      "https://fonts.googleapis.com/css2?family=Roboto%3Aital%2Cwght%400%2C400%3B0%2C700%3B1%2C400%3B1%2C700&display=auto" :=
  Eq.trans
    (claim_C5_import_url_v2.1 "Roboto" "auto" "https://fonts.googleapis.com/"
      [400, 700] [.normal, .italic] (by decide) (by decide))
    (by decide)

/-- C6 counterexample: with empty weight and style lists, the version 2
URL for importing does not carry the bare family name — the axis range `":@"` is
appended unconditionally, so the family parameter is `Roboto:@`
(percent-encoded `Roboto%3A%40`). -/
theorem claim_C6_counterexample :
    importUrlV2 { family := "Roboto", weight := .list [], style := .list [],
                  display := "auto", version := 2, url := "https://fonts.googleapis.com/" } =
      "https://fonts.googleapis.com/css2?family=Roboto%3A%40&display=auto" ∧
    importUrlV2 { family := "Roboto", weight := .list [], style := .list [],
                  display := "auto", version := 2, url := "https://fonts.googleapis.com/" } ≠
      "https://fonts.googleapis.com/css2?family=Roboto&display=auto" := by
  exact ⟨rfl, by decide⟩

/-- C6 (amended): with empty weight and style lists, the version 1 grammar
omits the family suffix entirely (bare family name), while the version 2
grammar appends the degenerate suffix `":@"` — an empty axis string and no
values — to the family name. -/
theorem claim_C6_amended_empty_lists (fam d u : String) :
    importUrlV1 { family := fam, weight := .list [], style := .list [],
                  display := d, version := 1, url := u } =
      u ++ "css?" ++ urlencodePairs [("family", fam), ("display", d)] ∧
    importUrlV2 { family := fam, weight := .list [], style := .list [],
                  display := d, version := 2, url := u } =
      u ++ "css2?" ++ urlencodePairs [("family", fam ++ ":@"), ("display", d)] := by
  constructor
  · simp [importUrlV1, SingleOrList.toList, sortByLe]
  · simp [importUrlV2, SingleOrList.toList, sortByLe]
    rfl

/-- Chain resolution is the identity on values that are not keys. -/
theorem chainResolve_eq_of_not_key (p : List (String × String)) (v : String)
    (h : alookup p v = none) (fuel : Nat) : chainResolve p fuel v = v := by
  cases fuel with
  | zero => rfl
  | succ n => simp [chainResolve, h]

/-- Fuel of chain resolution splits additively. -/
theorem chainResolve_add (p : List (String × String)) (a b : Nat) (v : String) :
    chainResolve p b (chainResolve p a v) = chainResolve p (a + b) v := by
  induction a generalizing v with
  | zero =>
    rw [Nat.zero_add]
    rfl
  | succ n ih =>
    cases hl : alookup p v with
    | none =>
      rw [chainResolve_eq_of_not_key p v hl (n + 1), chainResolve_eq_of_not_key p v hl b,
          chainResolve_eq_of_not_key p v hl (n + 1 + b)]
    | some w =>
      have h1 : chainResolve p (n + 1) v = chainResolve p n w := by
        simp [chainResolve, hl]
      have h2 : chainResolve p (n + 1 + b) v = chainResolve p (n + b) w := by
        rw [Nat.succ_add]
        simp [chainResolve, hl]
      rw [h1, ih w, h2]

/-- A successful lookup key is among the mapping's keys. -/
theorem mem_keys_of_alookup {β : Type} {p : List (String × β)} {x : String} {y : β}
    (h : alookup p x = some y) : x ∈ p.map Prod.fst := by
  induction p with
  | nil => simp [alookup] at h
  | cons kv rest ih =>
    obtain ⟨k, v⟩ := kv
    by_cases hx : x = k
    · simp [hx]
    · simp only [alookup] at h
      rw [if_neg hx] at h
      exact List.mem_cons_of_mem _ (ih h)

/-- Lookup in a map whose values were rewritten pointwise. -/
theorem alookup_map_snd {β γ : Type} (g : β → γ) (p : List (String × β)) (x : String) :
    alookup (p.map (fun kv => (kv.1, g kv.2))) x = (alookup p x).map g := by
  induction p with
  | nil => rfl
  | cons kv rest ih =>
    obtain ⟨k, v⟩ := kv
    by_cases hx : x = k <;> simp [alookup, hx, ih]

/-- In an acyclic namespace, chain resolution with fuel `length + 1` escapes
the key set: the resulting value is no longer a key.  The proof is a
pigeonhole argument — if all `length + 2` chain points were keys, two of
them would coincide and yield a cycle. -/
theorem chainResolve_escape (p : List (String × String)) (hnc : ¬ CyclicDefs p)
    (v : String) : alookup p (chainResolve p (p.length + 1) v) = none := by
  by_contra hmain
  have hkey : ∀ i, i ≤ p.length + 1 → alookup p (chainResolve p i v) ≠ none := by
    intro i hi hnone
    apply hmain
    have hadd : i + (p.length + 1 - i) = p.length + 1 := by omega
    calc alookup p (chainResolve p (p.length + 1) v)
        = alookup p (chainResolve p (i + (p.length + 1 - i)) v) := by rw [hadd]
      _ = alookup p (chainResolve p (p.length + 1 - i) (chainResolve p i v)) := by
          rw [chainResolve_add]
      _ = alookup p (chainResolve p i v) := by
          rw [chainResolve_eq_of_not_key p _ hnone]
      _ = none := hnone
  have hcyc : ∀ i j : Fin (p.length + 1), (i : Nat) < (j : Nat) →
      chainResolve p (i : Nat) v = chainResolve p (j : Nat) v → CyclicDefs p := by
    intro i j hij heq
    have hj := j.isLt
    refine ⟨chainResolve p (i : Nat) v, ?_, (j : Nat) - (i : Nat), ?_, ?_, ?_⟩
    · have h := hkey (i : Nat) (Nat.le_of_lt i.isLt)
      cases hy : alookup p (chainResolve p (i : Nat) v) with
      | none => exact absurd hy h
      | some y => exact mem_keys_of_alookup hy
    · rw [List.mem_range]
      omega
    · omega
    · calc chainResolve p ((j : Nat) - (i : Nat)) (chainResolve p (i : Nat) v)
          = chainResolve p ((i : Nat) + ((j : Nat) - (i : Nat))) v := chainResolve_add ..
        _ = chainResolve p (j : Nat) v := by congr 1; omega
        _ = chainResolve p (i : Nat) v := heq.symm
  have hcard : ((p.map Prod.fst).toFinset).card <
      (Finset.univ : Finset (Fin (p.length + 1))).card := by
    rw [Finset.card_univ, Fintype.card_fin]
    have h1 := List.toFinset_card_le (p.map Prod.fst)
    rw [List.length_map] at h1
    omega
  have hmaps : ∀ i ∈ (Finset.univ : Finset (Fin (p.length + 1))),
      chainResolve p (i : Nat) v ∈ (p.map Prod.fst).toFinset := by
    intro i _
    have h := hkey (i : Nat) (Nat.le_of_lt i.isLt)
    cases hy : alookup p (chainResolve p (i : Nat) v) with
    | none => exact absurd hy h
    | some y => exact List.mem_toFinset.mpr (mem_keys_of_alookup hy)
  obtain ⟨i, -, j, -, hne, heq⟩ :=
    Finset.exists_ne_map_eq_of_card_lt_of_maps_to hcard hmaps
  cases Ne.lt_or_lt hne with
  | inl h => exact hnc (hcyc i j h heq)
  | inr h => exact hnc (hcyc j i h heq.symm)

/-- C7: Every palette containing a cyclic reference chain — including the
self-referencing `{"a": "a"}` and the mutually-referencing
`{"a": "b", "b": "a"}` — fails palette validation with the circular
reference error; the check runs before resolution, so no resolved palette
is produced on failure. -/
theorem claim_C7_circular_references :
    (∀ p : List (String × String), CyclicDefs p →
       _create_brand_palette p = .error .circularReference) ∧
    CyclicDefs [("a", "a")] ∧
    CyclicDefs [("a", "b"), ("b", "a")] := by
  refine ⟨?_, by decide, by decide⟩
  intro p h
  unfold _create_brand_palette check_circular_references
  rw [if_pos h]

/-- Witness for C7 at the two concrete cyclic palettes. -/
theorem claim_C7_witness :
    _create_brand_palette [("a", "a")] = .error .circularReference ∧
    _create_brand_palette [("a", "b"), ("b", "a")] = .error .circularReference :=
  ⟨claim_C7_circular_references.1 _ (by decide),
   claim_C7_circular_references.1 _ (by decide)⟩

/-- C8: For every palette with no cyclic reference chain, palette resolution
is idempotent — resolving an already-resolved palette leaves every entry
unchanged, because resolved values are no longer namespace keys. -/
theorem claim_C8_resolution_idempotent :
    ∀ p : List (String × String), ¬ CyclicDefs p →
      defs_replace_recursively (defs_replace_recursively p) =
        defs_replace_recursively p := by
  intro p hnc
  have hfix : ∀ kv ∈ defs_replace_recursively p,
      chainResolve (defs_replace_recursively p)
        ((defs_replace_recursively p).length + 1) kv.2 = kv.2 := by
    intro kv hkv
    rw [defs_replace_recursively] at hkv
    obtain ⟨kv0, hkv0, rfl⟩ := List.mem_map.mp hkv
    apply chainResolve_eq_of_not_key
    show alookup (defs_replace_recursively p) (chainResolve p (p.length + 1) kv0.2) = none
    rw [defs_replace_recursively, alookup_map_snd, chainResolve_escape p hnc kv0.2]
    rfl
  calc defs_replace_recursively (defs_replace_recursively p)
      = (defs_replace_recursively p).map
          (fun kv => (kv.1, chainResolve (defs_replace_recursively p)
            ((defs_replace_recursively p).length + 1) kv.2)) := rfl
    _ = (defs_replace_recursively p).map (fun kv => kv) := by
        apply List.map_congr_left
        intro kv hkv
        rw [hfix kv hkv]
    _ = defs_replace_recursively p := List.map_id' _

/-- Witness for C8 at the spec's concrete acyclic palette. -/
theorem claim_C8_witness :
    ¬ CyclicDefs [("purple", "#6339E0"), ("primary", "purple")] ∧
    defs_replace_recursively (defs_replace_recursively
        [("purple", "#6339E0"), ("primary", "purple")]) =
      defs_replace_recursively [("purple", "#6339E0"), ("primary", "purple")] :=
  ⟨by decide, claim_C8_resolution_idempotent _ (by decide)⟩

/-- The per-field fallback satisfies the cascade specification. -/
theorem cascadeSpec_useFallbackField {α : Type} (c q : Option α) :
    CascadeSpec c q (useFallbackField c q) := by
  unfold CascadeSpec useFallbackField
  cases c <;> cases q <;> simp

/-- C9: When `monospace` is present, each of `monospace-inline` and
`monospace-block` that is present inherits `family`, `style`, `weight` and
`size` from it: after validation the child's attribute equals the parent's
value exactly when the child's value was unset and the parent's was set, a
child attribute that was already set keeps its original value, and an
attribute unset on both sides stays unset (the remaining child fields are
untouched). -/
theorem claim_C9_monospace_cascade (t : BrandTypography)
    (p : BrandTypographyMonospace) (hp : t.monospace = some p) :
    (∀ o o', t.monospace_inline = some o →
       (forward_monospace_values t).monospace_inline = some o' →
       CascadeSpec o.family p.family o'.family ∧
       CascadeSpec o.style p.style o'.style ∧
       CascadeSpec o.weight p.weight o'.weight ∧
       CascadeSpec o.size p.size o'.size ∧
       o'.color = o.color ∧ o'.background_color = o.background_color) ∧
    (∀ o, t.monospace_inline = some o →
       (forward_monospace_values t).monospace_inline ≠ none) ∧
    (∀ b b', t.monospace_block = some b →
       (forward_monospace_values t).monospace_block = some b' →
       CascadeSpec b.family p.family b'.family ∧
       CascadeSpec b.style p.style b'.style ∧
       CascadeSpec b.weight p.weight b'.weight ∧
       CascadeSpec b.size p.size b'.size ∧
       b'.line_height = b.line_height ∧
       b'.color = b.color ∧ b'.background_color = b.background_color) ∧
    (∀ b, t.monospace_block = some b →
       (forward_monospace_values t).monospace_block ≠ none) := by
  refine ⟨?_, ?_, ?_, ?_⟩
  · intro o o' ho ho'
    simp only [forward_monospace_values, hp, ho, Option.some.injEq] at ho'
    subst ho'
    exact ⟨cascadeSpec_useFallbackField _ _, cascadeSpec_useFallbackField _ _,
           cascadeSpec_useFallbackField _ _, cascadeSpec_useFallbackField _ _,
           rfl, rfl⟩
  · intro o ho
    simp [forward_monospace_values, hp, ho]
  · intro b b' hb hb'
    simp only [forward_monospace_values, hp, hb, Option.some.injEq] at hb'
    subst hb'
    exact ⟨cascadeSpec_useFallbackField _ _, cascadeSpec_useFallbackField _ _,
           cascadeSpec_useFallbackField _ _, cascadeSpec_useFallbackField _ _,
           rfl, rfl, rfl⟩
  · intro b hb
    simp [forward_monospace_values, hp, hb]

/-- Witness for C9 at the spec's concrete example: an unset inline family
inherits `"Fira Code"` while a block family already set to `"Custom"` keeps
its value. -/
theorem claim_C9_witness :
    CascadeSpec (none : Option String) (some "Fira Code") (some "Fira Code") ∧
    CascadeSpec (some "Custom") (some "Fira Code") (some "Custom") := by
  have h := claim_C9_monospace_cascade
    { monospace := some { family := some "Fira Code" },
      monospace_inline := some {},
      monospace_block := some { family := some "Custom" } }
    { family := some "Fira Code" } rfl
  exact ⟨(h.1 {} { family := some "Fira Code" } rfl rfl).1,
         (h.2.2.1 { family := some "Custom" } { family := some "Custom" } rfl rfl).1⟩

end BrandYml
